import Mathlib

/-!
Verification of the bloom-demo application (`src/main.rs`).

The development shallowly embeds the three systems of the program:

* the deterministic material selector inside `setup_scene`
  (`(hasher.finish() - 2) % 6` over `u64` arithmetic, then a `match`);
* the per-frame parameter controller `update_bloom_settings`;
* the per-frame `bounce_spheres` animator.

Modelling conventions:

* `u64` values are `Nat` taken modulo `2 ^ 64`; the subtraction in the
  selector is embedded as the modular (wrapping) subtraction the source
  relies on;
* `f32` parameter values are embedded as exact rationals `ℚ`; the claims
  under verification concern clamping bounds and exact update shapes, which
  are preserved by `f32`'s exact `clamp`/`max` comparisons;
* external library functions that the program treats as black boxes (the
  standard-library hasher, `f32::sin`, the `Display` formatting of floats,
  degree/radian conversion constants) are parameters of the model, so every
  theorem quantifies over them;
* the deferred `Commands` operations (`remove::<BloomSettings>`,
  `insert(BloomSettings::NATURAL)`) take effect at the end of the frame, so
  a frame step returns the post-flush world state.
-/

namespace BevyBloom

/-! ## Deterministic material selector (`setup_scene`, lines 83–97) -/

/-- The modulus of `u64` arithmetic. -/
def U64 : ℕ := 2 ^ 64

/-- Embedding of `hasher.finish() - 2` on `u64`: wrapping (modular)
subtraction of 2, as in the release-profile semantics the source relies on.
`h` is the 64-bit hash output. -/
def hashSub2 (h : ℕ) : ℕ := (h + (U64 - 2)) % U64

/-- Embedding of `let rand = (hasher.finish() - 2) % 6;`. -/
def randOf (h : ℕ) : ℕ := hashSub2 h % 6

/-- The four material categories of the scene: the three emissive materials
and the single non-emissive gray material. -/
inductive MaterialCategory
  | EmissiveA
  | EmissiveB
  | EmissiveC
  | NonEmissive
  deriving DecidableEq, Repr

/-- Embedding of the `match rand` at lines 91–97.  `none` models the
`_ => unreachable!()` fall-through arm. -/
def materialOf (h : ℕ) : Option MaterialCategory :=
  match randOf h with
  | 0 => some .EmissiveA
  | 1 => some .EmissiveB
  | 2 => some .EmissiveC
  | 3 | 4 | 5 => some .NonEmissive
  | _ => none

/-- The material selector for a grid cell `(x, z)`.  The 64-bit hash
function is a parameter: the program uses the standard library's default
hasher, which is external fixed code, so the theorems below hold for every
hash function, in particular for that one. -/
def select (hash : ℤ → ℤ → ℕ) (x z : ℤ) : Option MaterialCategory :=
  materialOf (hash x z)

/-- Modelled from the spec: the category that the spec's table assigns to a
residue `r = (hash(x, z) - 2) mod 6` — results 0, 1, 2 map to the three
emissive categories respectively and results 3, 4, 5 map to the single
non-emissive category. -/
def specCategory (r : ℕ) : MaterialCategory :=
  if r = 0 then .EmissiveA
  else if r = 1 then .EmissiveB
  else if r = 2 then .EmissiveC
  else .NonEmissive

/-! ## Data model of the parameter controller -/

/-- Embedding of `BloomCompositeMode`. -/
inductive BloomCompositeMode
  | EnergyConserving
  | Additive
  deriving DecidableEq, Repr

/-- Embedding of `BloomPrefilterSettings`. -/
structure BloomPrefilterSettings where
  threshold : ℚ
  threshold_softness : ℚ
  deriving DecidableEq, Repr

/-- Embedding of `BloomSettings` (the fields the program touches). -/
structure BloomSettings where
  intensity : ℚ
  low_frequency_boost : ℚ
  low_frequency_boost_curvature : ℚ
  high_pass_frequency : ℚ
  composite_mode : BloomCompositeMode
  prefilter_settings : BloomPrefilterSettings
  deriving DecidableEq, Repr

/-- The preset attached on re-enable (`BloomSettings::NATURAL`), with the
field values of the external engine's natural preset. -/
def BloomSettings.NATURAL : BloomSettings :=
  { intensity := 15 / 100
    low_frequency_boost := 7 / 10
    low_frequency_boost_curvature := 95 / 100
    high_pass_frequency := 1
    composite_mode := .EnergyConserving
    prefilter_settings := { threshold := 0, threshold_softness := 0 } }

/-- The key codes the controller distinguishes; `Other` stands for every
key code that falls into the `_ => {}` arm. -/
inductive KeyCode
  | BracketLeft
  | BracketRight
  | KeyP
  | Semicolon
  | KeyO
  | KeyL
  | KeyI
  | KeyK
  | KeyU
  | KeyJ
  | KeyY
  | KeyH
  | KeyT
  | KeyG
  | KeyR
  | KeyF
  | Space
  | Other
  deriving DecidableEq, Repr

/-- Embedding of `bevy::input::ButtonState`. -/
inductive ButtonState
  | Pressed
  | Released
  deriving DecidableEq, Repr

/-- Embedding of a `KeyboardInput` event (the fields the program reads). -/
structure KeyboardInput where
  key_code : KeyCode
  state : ButtonState
  deriving DecidableEq, Repr

/-- Embedding of `Projection`: the camera projection is either perspective
(with a field of view in radians) or orthographic. -/
structure PerspectiveProjection where
  fov : ℚ
  deriving DecidableEq, Repr

inductive Projection
  | Perspective (persp : PerspectiveProjection)
  | Orthographic
  deriving DecidableEq, Repr

/-- External constants and functions of the model: the radian values of the
fixed `2°` step and of the `180°` clamp bound (`f32::to_radians` of the
literals at lines 185 and 201), the float `Display` formatting used by
`format!`, and `f32::to_degrees` used at line 183. -/
structure Env where
  rad2 : ℚ
  rad180 : ℚ
  fmt : ℚ → String
  toDegrees : ℚ → ℚ

/-- The per-frame input read by `update_bloom_settings`: this frame's
keyboard events (`key_evr`), the edge-triggered
`keycode.just_pressed(KeyCode::Space)` flag, and `time.delta_seconds()`. -/
structure FrameInput where
  events : List KeyboardInput
  spaceJustPressed : Bool
  dt : ℚ
  deriving DecidableEq, Repr

/-- The world state the controller touches: the camera's optional
`BloomSettings` component, the overlay text, and the camera projection. -/
structure WorldState where
  bloom : Option BloomSettings
  text : String
  projection : Projection
  deriving DecidableEq, Repr

/-- Embedding of Rust's `clamp(lo, hi)` on an exactly ordered value. -/
def rclamp (v lo hi : ℚ) : ℚ := max lo (min hi v)

/-- The disabled-state overlay text (line 289). -/
def disabledText : String := "Bloom: Off (Toggle: Space)"

/-- The `Display` text of the composite mode (lines 170–173). -/
def modeText : BloomCompositeMode → String
  | .EnergyConserving => "Energy-conserving"
  | .Additive => "Additive"

/-- The enabled-state overlay text rebuilt at lines 154–183, from the
parameter values as they are before this frame's events are applied. -/
def enabledText (env : Env) (bs : BloomSettings) (fov : ℚ) : String :=
  "BloomSettings (Toggle: Space)\n" ++
  "(P/;) Intensity: " ++ env.fmt bs.intensity ++ "\n" ++
  "(O/L) Low-frequency boost: " ++ env.fmt bs.low_frequency_boost ++ "\n" ++
  "(I/K) Low-frequency boost curvature: " ++
    env.fmt bs.low_frequency_boost_curvature ++ "\n" ++
  "(U/J) High-pass frequency: " ++ env.fmt bs.high_pass_frequency ++ "\n" ++
  "(Y/H) Mode: " ++ modeText bs.composite_mode ++ "\n" ++
  "(T/G) Threshold: " ++ env.fmt bs.prefilter_settings.threshold ++ "\n" ++
  "(R/F) Threshold softness: " ++
    env.fmt bs.prefilter_settings.threshold_softness ++ "\n" ++
  "([/]) FOV: " ++ env.fmt (env.toDegrees fov) ++ "\n"

/-- The mutable state threaded through the event loop of the enabled
branch: the bloom settings, the perspective fov, and whether a deferred
`remove::<BloomSettings>` command has been queued. -/
structure EnState where
  bs : BloomSettings
  fov : ℚ
  removePending : Bool
  deriving DecidableEq, Repr

/-- One iteration of the `for ev in key_evr.read()` loop (lines 189–285) in
the enabled branch. -/
def applyEvent (env : Env) (dt : ℚ) (st : EnState) (ev : KeyboardInput) : EnState :=
  match ev.state with
  | .Released => st
  | .Pressed =>
    match ev.key_code with
    | .BracketLeft | .BracketRight =>
      let f := st.fov + env.rad2 * (if ev.key_code = .BracketLeft then 1 else -1)
      { st with fov := rclamp f 0 env.rad180 }
    | .KeyP | .Semicolon =>
      let v := st.bs.intensity + dt / 10 * (if ev.key_code = .KeyP then 1 else -1)
      { st with bs := { st.bs with intensity := rclamp v 0 1 } }
    | .KeyO | .KeyL =>
      let v := st.bs.low_frequency_boost + dt / 10 * (if ev.key_code = .KeyO then 1 else -1)
      { st with bs := { st.bs with low_frequency_boost := v } }
    | .KeyI | .KeyK =>
      let v := st.bs.low_frequency_boost_curvature +
        dt / 10 * (if ev.key_code = .KeyI then 1 else -1)
      { st with bs := { st.bs with low_frequency_boost_curvature := rclamp v 0 1 } }
    | .KeyU | .KeyJ =>
      let v := st.bs.high_pass_frequency + dt / 10 * (if ev.key_code = .KeyU then 1 else -1)
      { st with bs := { st.bs with high_pass_frequency := rclamp v 0 1 } }
    | .KeyY | .KeyH =>
      { st with bs := { st.bs with composite_mode :=
          if ev.key_code = .KeyY then .Additive else .EnergyConserving } }
    | .KeyT | .KeyG =>
      let v := st.bs.prefilter_settings.threshold +
        dt / 10 * (if ev.key_code = .KeyT then 1 else -1)
      { st with bs := { st.bs with prefilter_settings :=
          { st.bs.prefilter_settings with threshold := max v 0 } } }
    | .KeyR | .KeyF =>
      let v := st.bs.prefilter_settings.threshold_softness +
        dt / 10 * (if ev.key_code = .KeyR then 1 else -1)
      { st with bs := { st.bs with prefilter_settings :=
          { st.bs.prefilter_settings with threshold_softness := rclamp v 0 1 } } }
    | .Space => { st with removePending := true }
    | .Other => st

/-- Embedding of one run of the `update_bloom_settings` system, returning
the world state after the deferred commands are applied.  The function
returns the input state unchanged when the projection is not perspective
(the early `return` at lines 147–150). -/
def update_bloom_settings (env : Env) (inp : FrameInput) (s : WorldState) : WorldState :=
  match s.projection with
  | .Orthographic => s
  | .Perspective persp =>
    match s.bloom with
    | some bs =>
      let fin := inp.events.foldl (applyEvent env inp.dt) ⟨bs, persp.fov, false⟩
      { bloom := if fin.removePending then none else some fin.bs
        text := enabledText env bs persp.fov
        projection := .Perspective ⟨fin.fov⟩ }
    | none =>
      { bloom := if inp.spaceJustPressed then some BloomSettings.NATURAL else none
        text := disabledText
        projection := s.projection }

/-! ## The bounce animator (`bounce_spheres`, lines 301–306) -/

/-- The translation of a bouncing entity's `Transform`. -/
structure Transform where
  x : ℚ
  y : ℚ
  z : ℚ
  deriving DecidableEq, Repr

/-- One iteration of the `bounce_spheres` loop for a single transform; the
sine function (`f32::sin`, external) is a parameter. -/
def bounce_step (sine : ℚ → ℚ) (t : ℚ) (tr : Transform) : Transform :=
  { tr with y := sine (tr.x + tr.z + t) }

/-- Embedding of one run of the `bounce_spheres` system over all bouncing
entities; `t` is `time.elapsed_seconds()`. -/
def bounce_spheres (sine : ℚ → ℚ) (t : ℚ) (trs : List Transform) : List Transform :=
  trs.map (bounce_step sine t)

/-! ## Whole-frame steps -/

/-- The full application state touched by the two `Update` systems. -/
structure AppState where
  world : WorldState
  spheres : List Transform
  deriving DecidableEq, Repr

/-- One frame: both `Update` systems run once (they touch disjoint state,
so their order is immaterial). -/
def frame_step (env : Env) (sine : ℚ → ℚ) (inp : FrameInput) (t : ℚ)
    (s : AppState) : AppState :=
  { world := update_bloom_settings env inp s.world
    spheres := bounce_spheres sine t s.spheres }

/-- A run of consecutive frames, each with its own input and timestamp. -/
def run_frames (env : Env) (sine : ℚ → ℚ) :
    List (FrameInput × ℚ) → AppState → AppState
  | [], s => s
  | f :: rest, s => run_frames env sine rest (frame_step env sine f.1 f.2 s)

/-- A keyboard event is a press of the Space key. -/
def isSpacePress : KeyboardInput → Bool
  | ⟨.Space, .Pressed⟩ => true
  | _ => false

/-- Some event of the frame is a press of the Space key. -/
def spacePressed (evs : List KeyboardInput) : Bool := evs.any isSpacePress

/-- The frame's input never presses the Space key: neither as a keyboard
event nor as an edge-triggered `just_pressed` observation. -/
def noSpaceInput (inp : FrameInput) : Prop :=
  inp.spaceJustPressed = false ∧ spacePressed inp.events = false

instance (inp : FrameInput) : Decidable (noSpaceInput inp) :=
  inferInstanceAs (Decidable (_ = _ ∧ _ = _))

/-! ## Range invariants stated by the spec -/

/-- The stated ranges of the clamped bloom parameters: intensity,
low-frequency boost curvature, high-pass frequency and threshold softness
lie in `[0, 1]`; threshold is nonnegative.  Low-frequency boost is
deliberately absent: the program never clamps it. -/
def bsInv (bs : BloomSettings) : Prop :=
  0 ≤ bs.intensity ∧ bs.intensity ≤ 1 ∧
  0 ≤ bs.low_frequency_boost_curvature ∧ bs.low_frequency_boost_curvature ≤ 1 ∧
  0 ≤ bs.high_pass_frequency ∧ bs.high_pass_frequency ≤ 1 ∧
  0 ≤ bs.prefilter_settings.threshold ∧
  0 ≤ bs.prefilter_settings.threshold_softness ∧ bs.prefilter_settings.threshold_softness ≤ 1

/-- The bloom component, when present, satisfies the stated ranges. -/
def bloomInv : Option BloomSettings → Prop
  | none => True
  | some bs => bsInv bs

/-- A perspective field of view lies between 0 and the radian value of
180 degrees. -/
def projInv (env : Env) : Projection → Prop
  | .Perspective persp => 0 ≤ persp.fov ∧ persp.fov ≤ env.rad180
  | .Orthographic => True

/-- All stated range invariants of the world state. -/
def worldInv (env : Env) (s : WorldState) : Prop :=
  bloomInv s.bloom ∧ projInv env s.projection

/-- The range invariants restricted to the event-loop state. -/
def enInv (env : Env) (st : EnState) : Prop :=
  bsInv st.bs ∧ 0 ≤ st.fov ∧ st.fov ≤ env.rad180

/-! ## Concrete fixtures used to instantiate the theorems -/

/-- A concrete environment: rational stand-ins for the radian constants and
a trivial formatter. -/
def testEnv : Env :=
  { rad2 := 349 / 10000
    rad180 := 31416 / 10000
    fmt := fun _ => ""
    toDegrees := fun v => v * 10000 / 175 }

/-- A concrete perspective projection (about 75 degrees in radians). -/
def testPersp : PerspectiveProjection := ⟨131 / 100⟩

/-- A concrete bloom-enabled world state. -/
def testStateOn : WorldState :=
  { bloom := some BloomSettings.NATURAL, text := "", projection := .Perspective testPersp }

/-- A concrete bloom-disabled world state. -/
def testStateOff : WorldState :=
  { bloom := none, text := "", projection := .Perspective testPersp }

/-- A concrete world state with an orthographic camera. -/
def orthoState : WorldState :=
  { bloom := some BloomSettings.NATURAL, text := "abc", projection := .Orthographic }

/-- A frame input whose only event is a Space press. -/
def spacePressInput : FrameInput :=
  { events := [⟨.Space, .Pressed⟩], spaceJustPressed := true, dt := 1 / 60 }

/-- A frame input with no events at all. -/
def quietInput : FrameInput :=
  { events := [], spaceJustPressed := false, dt := 1 / 60 }

/-- A frame input pressing several adjustment keys. -/
def mixedInput : FrameInput :=
  { events := [⟨.KeyP, .Pressed⟩, ⟨.BracketLeft, .Pressed⟩, ⟨.KeyO, .Pressed⟩, ⟨.KeyT, .Pressed⟩]
    spaceJustPressed := false
    dt := 1 / 60 }

/-- A concrete full application state. -/
def testApp : AppState := { world := testStateOn, spheres := [⟨1, 0, 2⟩] }

/-! ## Helper lemmas -/

theorem rclamp_lb (v lo hi : ℚ) : lo ≤ rclamp v lo hi := le_max_left _ _

theorem rclamp_ub (v lo hi : ℚ) (h : lo ≤ hi) : rclamp v lo hi ≤ hi :=
  max_le h (min_le_left _ _)

theorem natural_bsInv : bsInv BloomSettings.NATURAL := by
  norm_num [bsInv, BloomSettings.NATURAL]

theorem applyEvent_removePending (env : Env) (dt : ℚ) (st : EnState) (ev : KeyboardInput) :
    (applyEvent env dt st ev).removePending = (st.removePending || isSpacePress ev) := by
  rcases ev with ⟨k, bst⟩
  cases bst <;> cases k <;> simp [applyEvent, isSpacePress]

theorem foldl_removePending (env : Env) (dt : ℚ) (evs : List KeyboardInput) (st : EnState) :
    (evs.foldl (applyEvent env dt) st).removePending
      = (st.removePending || spacePressed evs) := by
  induction evs generalizing st with
  | nil => simp [spacePressed]
  | cons e es ih =>
    simp [spacePressed, List.foldl_cons, ih, applyEvent_removePending, Bool.or_assoc,
      List.any_cons]

theorem applyEvent_enInv (env : Env) (dt : ℚ) (st : EnState) (ev : KeyboardInput)
    (h180 : 0 ≤ env.rad180) (h : enInv env st) :
    enInv env (applyEvent env dt st ev) := by
  obtain ⟨hbs, hf0, hf1⟩ := h
  obtain ⟨hi0, hi1, hc0, hc1, hh0, hh1, ht0, hs0, hs1⟩ := hbs
  have hbs : bsInv st.bs := ⟨hi0, hi1, hc0, hc1, hh0, hh1, ht0, hs0, hs1⟩
  rcases ev with ⟨k, bst⟩
  cases bst with
  | Released => exact ⟨hbs, hf0, hf1⟩
  | Pressed =>
    cases k with
    | BracketLeft => exact ⟨hbs, rclamp_lb _ _ _, rclamp_ub _ _ _ h180⟩
    | BracketRight => exact ⟨hbs, rclamp_lb _ _ _, rclamp_ub _ _ _ h180⟩
    | KeyP =>
      exact ⟨⟨rclamp_lb _ _ _, rclamp_ub _ _ _ (by norm_num), hc0, hc1, hh0, hh1, ht0, hs0, hs1⟩,
        hf0, hf1⟩
    | Semicolon =>
      exact ⟨⟨rclamp_lb _ _ _, rclamp_ub _ _ _ (by norm_num), hc0, hc1, hh0, hh1, ht0, hs0, hs1⟩,
        hf0, hf1⟩
    | KeyO => exact ⟨⟨hi0, hi1, hc0, hc1, hh0, hh1, ht0, hs0, hs1⟩, hf0, hf1⟩
    | KeyL => exact ⟨⟨hi0, hi1, hc0, hc1, hh0, hh1, ht0, hs0, hs1⟩, hf0, hf1⟩
    | KeyI =>
      exact ⟨⟨hi0, hi1, rclamp_lb _ _ _, rclamp_ub _ _ _ (by norm_num), hh0, hh1, ht0, hs0, hs1⟩,
        hf0, hf1⟩
    | KeyK =>
      exact ⟨⟨hi0, hi1, rclamp_lb _ _ _, rclamp_ub _ _ _ (by norm_num), hh0, hh1, ht0, hs0, hs1⟩,
        hf0, hf1⟩
    | KeyU =>
      exact ⟨⟨hi0, hi1, hc0, hc1, rclamp_lb _ _ _, rclamp_ub _ _ _ (by norm_num), ht0, hs0, hs1⟩,
        hf0, hf1⟩
    | KeyJ =>
      exact ⟨⟨hi0, hi1, hc0, hc1, rclamp_lb _ _ _, rclamp_ub _ _ _ (by norm_num), ht0, hs0, hs1⟩,
        hf0, hf1⟩
    | KeyY => exact ⟨⟨hi0, hi1, hc0, hc1, hh0, hh1, ht0, hs0, hs1⟩, hf0, hf1⟩
    | KeyH => exact ⟨⟨hi0, hi1, hc0, hc1, hh0, hh1, ht0, hs0, hs1⟩, hf0, hf1⟩
    | KeyT =>
      exact ⟨⟨hi0, hi1, hc0, hc1, hh0, hh1, le_max_right _ _, hs0, hs1⟩, hf0, hf1⟩
    | KeyG =>
      exact ⟨⟨hi0, hi1, hc0, hc1, hh0, hh1, le_max_right _ _, hs0, hs1⟩, hf0, hf1⟩
    | KeyR =>
      exact ⟨⟨hi0, hi1, hc0, hc1, hh0, hh1, ht0, rclamp_lb _ _ _, rclamp_ub _ _ _ (by norm_num)⟩,
        hf0, hf1⟩
    | KeyF =>
      exact ⟨⟨hi0, hi1, hc0, hc1, hh0, hh1, ht0, rclamp_lb _ _ _, rclamp_ub _ _ _ (by norm_num)⟩,
        hf0, hf1⟩
    | Space => exact ⟨hbs, hf0, hf1⟩
    | Other => exact ⟨hbs, hf0, hf1⟩

theorem foldl_enInv (env : Env) (dt : ℚ) (evs : List KeyboardInput) (st : EnState)
    (h180 : 0 ≤ env.rad180) (h : enInv env st) :
    enInv env (evs.foldl (applyEvent env dt) st) := by
  induction evs generalizing st with
  | nil => exact h
  | cons e es ih => exact ih _ (applyEvent_enInv env dt st e h180 h)

theorem update_worldInv (env : Env) (inp : FrameInput) (s : WorldState)
    (h180 : 0 ≤ env.rad180) (h : worldInv env s) :
    worldInv env (update_bloom_settings env inp s) := by
  obtain ⟨hb, hp⟩ := h
  rcases s with ⟨bloom, text, proj⟩
  rcases proj with persp | _
  · rcases bloom with _ | bs
    · refine ⟨?_, hp⟩
      simp only [update_bloom_settings]
      rcases inp.spaceJustPressed with _ | _
      · simp [bloomInv]
      · simpa [bloomInv] using natural_bsInv
    · have hfold : enInv env (inp.events.foldl (applyEvent env inp.dt) ⟨bs, persp.fov, false⟩) :=
        foldl_enInv env inp.dt inp.events _ h180 ⟨hb, hp.1, hp.2⟩
      refine ⟨?_, ?_⟩
      · simp only [update_bloom_settings]
        rcases hrp : (inp.events.foldl (applyEvent env inp.dt) ⟨bs, persp.fov, false⟩).removePending
        · simpa [bloomInv, hrp] using hfold.1
        · simp [bloomInv, hrp]
      · simpa [update_bloom_settings, projInv] using ⟨hfold.2.1, hfold.2.2⟩
  · exact ⟨hb, hp⟩

theorem update_disabled_text (env : Env) (inp : FrameInput) (w : WorldState)
    (p : PerspectiveProjection) (hp : w.projection = .Perspective p)
    (hb : w.bloom = none) :
    (update_bloom_settings env inp w).text = disabledText := by
  simp [update_bloom_settings, hp, hb]

theorem update_bloom_presence (env : Env) (inp : FrameInput) (s : WorldState)
    (h : noSpaceInput inp) :
    (update_bloom_settings env inp s).bloom.isSome = s.bloom.isSome := by
  obtain ⟨hjp, hsp⟩ := h
  rcases s with ⟨bloom, text, proj⟩
  rcases proj with persp | _
  · rcases bloom with _ | bs
    · simp [update_bloom_settings, hjp]
    · simp [update_bloom_settings, foldl_removePending, hsp]
  · rfl

theorem min_shift (b a c : ℚ) (hc : 0 ≤ c) : min b (min b a + c) = min b (a + c) := by
  rcases le_total a b with hab | hba
  · rw [min_eq_right hab]
  · rw [min_eq_left hba, min_eq_left (le_add_of_nonneg_right hc),
      min_eq_left (le_trans hba (le_add_of_nonneg_right hc))]

theorem foldl_bracketLeft (env : Env) (dt : ℚ) (k : ℕ) (st : EnState)
    (h2 : 0 ≤ env.rad2) (h0 : 0 ≤ st.fov) (h1 : st.fov ≤ env.rad180) :
    (List.replicate k ⟨.BracketLeft, .Pressed⟩).foldl (applyEvent env dt) st
      = { st with fov := min env.rad180 (st.fov + (k : ℚ) * env.rad2) } := by
  induction k generalizing st with
  | zero =>
    simp only [List.replicate, List.foldl_nil, Nat.cast_zero, zero_mul, add_zero]
    rw [min_eq_right h1]
  | succ k ih =>
    have h180 : (0 : ℚ) ≤ env.rad180 := le_trans h0 h1
    have hfov : rclamp (st.fov + env.rad2 * 1) 0 env.rad180
        = min env.rad180 (st.fov + env.rad2) := by
      rw [mul_one]
      unfold rclamp
      exact max_eq_right (le_min h180 (add_nonneg h0 h2))
    have happ : applyEvent env dt st ⟨.BracketLeft, .Pressed⟩
        = { st with fov := min env.rad180 (st.fov + env.rad2) } := by
      show ({ st with fov := rclamp (st.fov + env.rad2 * 1) 0 env.rad180 } : EnState) = _
      rw [hfov]
    have ih' := ih { st with fov := min env.rad180 (st.fov + env.rad2) }
      (le_min h180 (add_nonneg h0 h2)) (min_le_left _ _)
    rw [List.replicate_succ, List.foldl_cons, happ, ih']
    congr 1
    rw [min_shift env.rad180 (st.fov + env.rad2) ((k : ℚ) * env.rad2)
      (mul_nonneg (Nat.cast_nonneg k) h2)]
    congr 1
    push_cast
    ring

/-! ## Claims -/

/-- Claim C1: for every pair of integers `(x, z)` the material selector
computes the value `(hash(x, z) - 2) mod 6` in wrapping 64-bit arithmetic
(here `randOf` applied to the hash output) and maps result 0 to Emissive-A,
1 to Emissive-B, 2 to Emissive-C, and 3, 4, 5 to the non-emissive category;
the result is always `some` of one of the four categories, so the
`unreachable!` fall-through arm (modelled by `none`) is never taken, and
the selector is a pure function of `(x, z)`, hence deterministic.  The
statement holds for every 64-bit hash function, in particular for the
program's fixed default hasher. -/
theorem c1_material_selector (hash : ℤ → ℤ → ℕ) (x z : ℤ) :
    select hash x z = some (specCategory (randOf (hash x z)))
    ∧ randOf (hash x z) < 6 := by
  have h6 : randOf (hash x z) < 6 := Nat.mod_lt _ (by norm_num)
  refine ⟨?_, h6⟩
  unfold select materialOf specCategory
  generalize randOf (hash x z) = r at h6 ⊢
  interval_cases r <;> rfl

/-- Claim C2: the subtraction of 2 from the 64-bit hash value is modelled
as the wrapping (modular) subtraction the source relies on; for every
64-bit hash value, including 0 and 1, it is total (no underflow or panic),
stays inside the `u64` range, and the subsequent `% 6` lands in `[0, 6)`. -/
theorem c2_wrapping_subtraction (h : ℕ) (_hh : h < U64) :
    hashSub2 h < U64 ∧ randOf h < 6 :=
  ⟨Nat.mod_lt _ (by norm_num [U64]), Nat.mod_lt _ (by norm_num)⟩

theorem c2_wrapping_subtraction_witness :
    (0 < U64 ∧ hashSub2 0 < U64 ∧ randOf 0 < 6)
    ∧ (1 < U64 ∧ hashSub2 1 < U64 ∧ randOf 1 < 6) :=
  ⟨⟨by norm_num [U64], (c2_wrapping_subtraction 0 (by norm_num [U64])).1,
      (c2_wrapping_subtraction 0 (by norm_num [U64])).2⟩,
    ⟨by norm_num [U64], (c2_wrapping_subtraction 1 (by norm_num [U64])).1,
      (c2_wrapping_subtraction 1 (by norm_num [U64])).2⟩⟩

/-- Claim C5: one step of the bounce animator sets the vertical position of
a bouncing entity to exactly `sin(x + z + t)`, leaves the horizontal
coordinates unchanged, and is idempotent at a fixed timestamp, both for a
single entity and for the whole `bounce_spheres` pass; the result is a pure
function of `(x, z, t)`, hence reproducible across runs. -/
theorem c5_bounce_sets_sine (sine : ℚ → ℚ) (t : ℚ) (tr : Transform) :
    (bounce_step sine t tr).y = sine (tr.x + tr.z + t)
    ∧ (bounce_step sine t tr).x = tr.x
    ∧ (bounce_step sine t tr).z = tr.z
    ∧ bounce_step sine t (bounce_step sine t tr) = bounce_step sine t tr
    ∧ ∀ trs : List Transform,
        bounce_spheres sine t (bounce_spheres sine t trs) = bounce_spheres sine t trs := by
  refine ⟨rfl, rfl, rfl, rfl, ?_⟩
  intro trs
  unfold bounce_spheres
  rw [List.map_map]
  exact congrArg (fun g => List.map g trs) (funext fun _ => rfl)

/-- Claim C6: in the bloom-enabled state each key-press event adjusts its
bound parameter by exactly `dt / 10` (positive for the increase key,
negative for the decrease key) before the clamp, for intensity,
low-frequency boost (which is not clamped), low-frequency boost curvature,
high-pass frequency, threshold, and threshold softness; a field-of-view
press moves the fov by the fixed angular step `rad2` (the radian value of
2 degrees), not scaled by `dt`; and the composite-mode keys act
immediately: Y sets additive, H sets energy-conserving. -/
theorem c6_event_adjustments (env : Env) (dt : ℚ) (st : EnState) :
    (applyEvent env dt st ⟨.KeyP, .Pressed⟩).bs.intensity
        = rclamp (st.bs.intensity + dt / 10) 0 1
    ∧ (applyEvent env dt st ⟨.Semicolon, .Pressed⟩).bs.intensity
        = rclamp (st.bs.intensity - dt / 10) 0 1
    ∧ (applyEvent env dt st ⟨.KeyO, .Pressed⟩).bs.low_frequency_boost
        = st.bs.low_frequency_boost + dt / 10
    ∧ (applyEvent env dt st ⟨.KeyL, .Pressed⟩).bs.low_frequency_boost
        = st.bs.low_frequency_boost - dt / 10
    ∧ (applyEvent env dt st ⟨.KeyI, .Pressed⟩).bs.low_frequency_boost_curvature
        = rclamp (st.bs.low_frequency_boost_curvature + dt / 10) 0 1
    ∧ (applyEvent env dt st ⟨.KeyK, .Pressed⟩).bs.low_frequency_boost_curvature
        = rclamp (st.bs.low_frequency_boost_curvature - dt / 10) 0 1
    ∧ (applyEvent env dt st ⟨.KeyU, .Pressed⟩).bs.high_pass_frequency
        = rclamp (st.bs.high_pass_frequency + dt / 10) 0 1
    ∧ (applyEvent env dt st ⟨.KeyJ, .Pressed⟩).bs.high_pass_frequency
        = rclamp (st.bs.high_pass_frequency - dt / 10) 0 1
    ∧ (applyEvent env dt st ⟨.KeyT, .Pressed⟩).bs.prefilter_settings.threshold
        = max (st.bs.prefilter_settings.threshold + dt / 10) 0
    ∧ (applyEvent env dt st ⟨.KeyG, .Pressed⟩).bs.prefilter_settings.threshold
        = max (st.bs.prefilter_settings.threshold - dt / 10) 0
    ∧ (applyEvent env dt st ⟨.KeyR, .Pressed⟩).bs.prefilter_settings.threshold_softness
        = rclamp (st.bs.prefilter_settings.threshold_softness + dt / 10) 0 1
    ∧ (applyEvent env dt st ⟨.KeyF, .Pressed⟩).bs.prefilter_settings.threshold_softness
        = rclamp (st.bs.prefilter_settings.threshold_softness - dt / 10) 0 1
    ∧ (applyEvent env dt st ⟨.BracketLeft, .Pressed⟩).fov
        = rclamp (st.fov + env.rad2) 0 env.rad180
    ∧ (applyEvent env dt st ⟨.BracketRight, .Pressed⟩).fov
        = rclamp (st.fov - env.rad2) 0 env.rad180
    ∧ (applyEvent env dt st ⟨.KeyY, .Pressed⟩).bs.composite_mode = .Additive
    ∧ (applyEvent env dt st ⟨.KeyH, .Pressed⟩).bs.composite_mode = .EnergyConserving := by
  refine ⟨?_, ?_, ?_, ?_, ?_, ?_, ?_, ?_, ?_, ?_, ?_, ?_, ?_, ?_, rfl, rfl⟩ <;>
    simp [applyEvent, mul_one, mul_neg_one, sub_eq_add_neg]

/-- Claim C10: when the camera projection is not perspective, one run of
`update_bloom_settings` changes nothing at all: the returned world state is
the input state, so the text is not rewritten, no parameter is adjusted,
and the bloom component is neither removed nor inserted. -/
theorem c10_orthographic_noop (env : Env) (inp : FrameInput) (s : WorldState)
    (h : s.projection = .Orthographic) :
    update_bloom_settings env inp s = s := by
  rcases s with ⟨b, t, proj⟩
  change proj = _ at h
  subst h
  rfl

theorem c10_orthographic_noop_witness :
    update_bloom_settings testEnv spacePressInput orthoState = orthoState :=
  c10_orthographic_noop testEnv spacePressInput orthoState rfl

/-- Claim C3: starting from parameter values within their stated ranges,
after any sequence of frames (each with an arbitrary list of key events)
the clamped bloom parameters stay in `[0, 1]`, the threshold stays
nonnegative, and the field of view stays in `[0, rad180]` (the radian value
of 180 degrees); low-frequency boost is deliberately not part of the
invariant, since the program never clamps it. -/
theorem c3_range_invariants (env : Env) (sine : ℚ → ℚ) (frames : List (FrameInput × ℚ))
    (s : AppState) (h180 : 0 ≤ env.rad180) (h : worldInv env s.world) :
    worldInv env (run_frames env sine frames s).world := by
  induction frames generalizing s with
  | nil => exact h
  | cons f rest ih =>
    exact ih (frame_step env sine f.1 f.2 s) (update_worldInv env f.1 s.world h180 h)

theorem c3_range_invariants_witness :
    worldInv testEnv
      (run_frames testEnv (fun _ => 0)
        [(mixedInput, 1), (spacePressInput, 2), (quietInput, 3)] testApp).world :=
  c3_range_invariants testEnv (fun _ => 0)
    [(mixedInput, 1), (spacePressInput, 2), (quietInput, 3)] testApp
    (by norm_num [testEnv])
    ⟨natural_bsInv, by norm_num [testPersp], by norm_num [testPersp, testEnv]⟩

/-- Claim C4: with a perspective projection, a Space press event in the
bloom-enabled state removes the bloom component (the state after the frame
has no bloom settings); in the bloom-disabled state an edge-triggered Space
press attaches a fresh `BloomSettings.NATURAL`; and when Space is not
pressed in either sense, the presence of the bloom component is
unchanged — no other key toggles the enabled/disabled state. -/
theorem c4_space_toggle (env : Env) (inp : FrameInput) (s : WorldState)
    (persp : PerspectiveProjection) (hp : s.projection = .Perspective persp) :
    (∀ bs, s.bloom = some bs → spacePressed inp.events = true →
        (update_bloom_settings env inp s).bloom = none)
    ∧ (s.bloom = none → inp.spaceJustPressed = true →
        (update_bloom_settings env inp s).bloom = some BloomSettings.NATURAL)
    ∧ (spacePressed inp.events = false → inp.spaceJustPressed = false →
        (update_bloom_settings env inp s).bloom.isSome = s.bloom.isSome) := by
  refine ⟨?_, ?_, ?_⟩
  · intro bs hb hsp
    simp [update_bloom_settings, hp, hb, foldl_removePending, hsp]
  · intro hb hjp
    simp [update_bloom_settings, hp, hb, hjp]
  · intro hsp hjp
    exact update_bloom_presence env inp s ⟨hjp, hsp⟩

theorem c4_space_toggle_witness :
    (update_bloom_settings testEnv spacePressInput testStateOn).bloom = none
    ∧ (update_bloom_settings testEnv spacePressInput testStateOff).bloom
        = some BloomSettings.NATURAL :=
  ⟨(c4_space_toggle testEnv spacePressInput testStateOn testPersp rfl).1
      BloomSettings.NATURAL rfl rfl,
    (c4_space_toggle testEnv spacePressInput testStateOff testPersp rfl).2.1 rfl rfl⟩

/-- Claim C7 counterexample: in the bloom-enabled state with a Space press
this frame, the controller removes the bloom component, but the overlay
text at the end of that same frame is not the disabled-state hint — the
enabled branch wrote the parameter listing before processing the events,
and the removal is deferred, so the claim that the text observed at the end
of the frame is the disabled-state hint is false. -/
theorem c7_same_frame_text_counterexample :
    (update_bloom_settings testEnv spacePressInput testStateOn).bloom = none
    ∧ (update_bloom_settings testEnv spacePressInput testStateOn).text ≠ disabledText := by
  constructor
  · rfl
  · decide

/-- Claim C7 as amended: pressing Space in the bloom-enabled state removes
the bloom component by the end of that frame, but that frame's overlay text
is the enabled-state parameter listing (built from the pre-event parameter
values); the disabled-state hint appears on the next frame's controller
step. -/
theorem c7_deferred_hint (env : Env) (inp inp2 : FrameInput) (s : WorldState)
    (bs : BloomSettings) (persp : PerspectiveProjection)
    (hp : s.projection = .Perspective persp) (hb : s.bloom = some bs)
    (hs : spacePressed inp.events = true) :
    (update_bloom_settings env inp s).bloom = none
    ∧ (update_bloom_settings env inp s).text = enabledText env bs persp.fov
    ∧ (update_bloom_settings env inp2 (update_bloom_settings env inp s)).text
        = disabledText := by
  have h1 : (update_bloom_settings env inp s).bloom = none := by
    simp [update_bloom_settings, hp, hb, foldl_removePending, hs]
  have hp2 : (update_bloom_settings env inp s).projection
      = .Perspective ⟨(inp.events.foldl (applyEvent env inp.dt) ⟨bs, persp.fov, false⟩).fov⟩ := by
    simp [update_bloom_settings, hp, hb]
  refine ⟨h1, ?_, ?_⟩
  · simp [update_bloom_settings, hp, hb]
  · exact update_disabled_text env inp2 _ _ hp2 h1

theorem c7_deferred_hint_witness :
    (update_bloom_settings testEnv spacePressInput testStateOn).bloom = none
    ∧ (update_bloom_settings testEnv spacePressInput testStateOn).text
        = enabledText testEnv BloomSettings.NATURAL testPersp.fov
    ∧ (update_bloom_settings testEnv quietInput
        (update_bloom_settings testEnv spacePressInput testStateOn)).text
        = disabledText :=
  c7_deferred_hint testEnv spacePressInput quietInput testStateOn
    BloomSettings.NATURAL testPersp rfl rfl rfl

/-- Claim C8: if the Space key is never pressed (neither as a keyboard
event nor as an edge-triggered observation), the presence of the bloom
component is invariant across any number of frames of the parameter
controller and the bounce animator. -/
theorem c8_no_space_presence_invariant (env : Env) (sine : ℚ → ℚ)
    (frames : List (FrameInput × ℚ)) (s : AppState)
    (h : ∀ f ∈ frames, noSpaceInput f.1) :
    (run_frames env sine frames s).world.bloom.isSome = s.world.bloom.isSome := by
  induction frames generalizing s with
  | nil => rfl
  | cons f rest ih =>
    have hstep := update_bloom_presence env f.1 s.world (h f (List.mem_cons_self f rest))
    have hrest := ih (frame_step env sine f.1 f.2 s)
      (fun g hg => h g (List.mem_cons_of_mem f hg))
    calc (run_frames env sine (f :: rest) s).world.bloom.isSome
        = (run_frames env sine rest (frame_step env sine f.1 f.2 s)).world.bloom.isSome := rfl
      _ = (frame_step env sine f.1 f.2 s).world.bloom.isSome := hrest
      _ = s.world.bloom.isSome := hstep

theorem c8_no_space_presence_invariant_witness :
    (run_frames testEnv (fun _ => 0) [(quietInput, 1), (mixedInput, 2)]
        testApp).world.bloom.isSome
      = testApp.world.bloom.isSome :=
  c8_no_space_presence_invariant testEnv (fun _ => 0) [(quietInput, 1), (mixedInput, 2)]
    testApp (by decide)

/-- Claim C9: with bloom enabled and a perspective projection, a frame
whose events are `k` presses of the `[` key (the events a held key
produces at the key-repeat rate, so `k` grows linearly with the holding
time) moves the field of view from `fov` to
`min rad180 (fov + k * rad2)` — an increase of `k` fixed angular steps,
clamped at the radian value of 180 degrees — and keeps the bloom settings
unchanged. -/
theorem c9_hold_bracket_left (env : Env) (s : WorldState) (bs : BloomSettings)
    (persp : PerspectiveProjection) (k : ℕ) (sjp : Bool) (dt : ℚ)
    (hp : s.projection = .Perspective persp) (hb : s.bloom = some bs)
    (h2 : 0 ≤ env.rad2) (h0 : 0 ≤ persp.fov) (h1 : persp.fov ≤ env.rad180) :
    (update_bloom_settings env ⟨List.replicate k ⟨.BracketLeft, .Pressed⟩, sjp, dt⟩
        s).projection
      = .Perspective ⟨min env.rad180 (persp.fov + (k : ℚ) * env.rad2)⟩
    ∧ (update_bloom_settings env ⟨List.replicate k ⟨.BracketLeft, .Pressed⟩, sjp, dt⟩
        s).bloom
      = some bs := by
  have hfold := foldl_bracketLeft env dt k ⟨bs, persp.fov, false⟩ h2 h0 h1
  constructor
  · simp [update_bloom_settings, hp, hb, hfold]
  · simp [update_bloom_settings, hp, hb, hfold]

theorem c9_hold_bracket_left_witness :
    (update_bloom_settings testEnv
        ⟨List.replicate 5 ⟨.BracketLeft, .Pressed⟩, false, 1 / 60⟩ testStateOn).projection
      = .Perspective ⟨min testEnv.rad180 (testPersp.fov + ((5 : ℕ) : ℚ) * testEnv.rad2)⟩
    ∧ (update_bloom_settings testEnv
        ⟨List.replicate 5 ⟨.BracketLeft, .Pressed⟩, false, 1 / 60⟩ testStateOn).bloom
      = some BloomSettings.NATURAL :=
  c9_hold_bracket_left testEnv testStateOn BloomSettings.NATURAL testPersp 5 false (1 / 60)
    rfl rfl (by norm_num [testEnv]) (by norm_num [testPersp])
    (by norm_num [testPersp, testEnv])

end BevyBloom
